import Mathlib

/-!
Verification of the receipt-scanner repository's extraction decision core and
frontend upload/aggregation logic, as described in its specification.

The frontend TypeScript (`src/receipt-scanner-app/receipt-scanner-frontend`),
the Supabase edge function (`src/unnamed/part_001`) and the enhanced frontend
api module (`src/unnamed/part_005`) are embedded directly from the source.
The Python backend extraction core (`app/main.py`: vision path, OCR path,
regex/heuristic field extraction, reconciler) is not part of the shipped
sources, so those components are modelled from the specification; each such
definition is marked `Modelled from the spec:` in its doc comment.

JavaScript numbers are modelled as rationals (`ℚ`); file sizes as naturals.
-/

namespace ReceiptScanner

/-- A browser `File` object as far as the upload code inspects it:
`name`, `size` (bytes) and MIME `type`. -/
structure JsFile where
  name : String
  size : ℕ
  type : String
deriving DecidableEq, Repr

namespace ApiIndex

/-- Allowed MIME types in `uploadReceipt` of
`receipt-scanner-frontend/src/api/index.ts` (lines 63-66). -/
def allowedTypes : List String := ["image/jpeg", "image/png", "image/jpg"]

/-- Maximum upload size of `api/index.ts` `uploadReceipt`: 10 MB (line 68). -/
def maxSize : ℕ := 10 * 1024 * 1024

/-- The `uploadReceipt` of `src/receipt-scanner-frontend/src/api/index.ts`
(lines 57-86): reject a type outside the JPEG/PNG allowlist, reject a file
over 10 MB, otherwise submit the file unchanged to the upload endpoint.
The returned value is the file that is submitted, or the thrown error text. -/
def uploadReceipt (f : JsFile) : Except String JsFile :=
  if ¬ allowedTypes.contains f.type then
    .error "サポートされていないファイル形式です。JPEG または PNG ファイルを選択してください。"
  else if maxSize < f.size then
    .error "ファイルサイズが大きすぎます。10MB以下のファイルを選択してください。"
  else
    .ok f

/-- Whether `api/index.ts` `uploadReceipt` submits the file. -/
def accepts (f : JsFile) : Bool :=
  match uploadReceipt f with
  | .ok _ => true
  | .error _ => false

end ApiIndex

namespace Part005

/-- Lower-cased characters of a file name (the source calls
`file.name.toLowerCase()`). -/
def lowerName (f : JsFile) : List Char :=
  f.name.data.map Char.toLower

/-- Whether `l` ends with the character sequence `pat`. -/
def endsWithSeq (pat l : List Char) : Bool :=
  decide (pat.reverse <+: l.reverse)

/-- The `needsConversion` test of `uploadReceipt` in `src/unnamed/part_005`
(lines 276-279): convert unless the MIME type is JPEG/PNG, and always convert
`.heic`/`.heif` names and `application/octet-stream` content. -/
def needsConversion (f : JsFile) : Bool :=
  !(["image/jpeg", "image/png"].contains f.type)
    || endsWithSeq ".heic".data (lowerName f)
    || endsWithSeq ".heif".data (lowerName f)
    || (f.type == "application/octet-stream")

/-- Maximum upload size of the `part_005` `uploadReceipt`: 50 MB (line 296). -/
def maxSize : ℕ := 50 * 1024 * 1024

/-- The `uploadReceipt` of `src/unnamed/part_005` (lines 259-308).
`conv` is the outcome of the external `convertImageToJPEG` call (the canvas
round trip): on a conversion failure the function proceeds with the original
file (lines 290-294); then the 50 MB limit is checked and the processed file
is submitted. The returned value is the file submitted to the endpoint, or
the thrown error text. -/
def uploadReceipt (f : JsFile) (conv : Except String JsFile) : Except String JsFile :=
  let processed : JsFile :=
    if needsConversion f then
      match conv with
      | .ok g => g
      | .error _ => f
    else f
  if maxSize < processed.size then
    .error "ファイルサイズが大きすぎます。50MB以下のファイルを選択してください。"
  else
    .ok processed

/-- Whether the `part_005` `uploadReceipt` submits a file. -/
def accepts (f : JsFile) (conv : Except String JsFile) : Bool :=
  match uploadReceipt f conv with
  | .ok _ => true
  | .error _ => false

/-- The maximum dimension bound of `convertImageToJPEG` in
`src/unnamed/part_005` (line 129): 4000 px. -/
def maxDim : ℚ := 4000

/-- The dimension clamp of `convertImageToJPEG` in `src/unnamed/part_005`
(lines 128-137): if width or height exceeds 4000, scale both by
`min (4000/width) (4000/height)`; otherwise keep them. Dimensions are
JavaScript numbers, modelled as rationals. -/
def convertImageDims (w h : ℚ) : ℚ × ℚ :=
  if maxDim < w ∨ maxDim < h then
    let ratio := min (maxDim / w) (maxDim / h)
    (w * ratio, h * ratio)
  else
    (w, h)

end Part005

end ReceiptScanner

namespace ReceiptScanner

/-- C6: For every decoded image whose width or height exceeds 4000 px, the
normalizer downscales it so that both output dimensions are at most 4000
while the width-to-height ratio is preserved (stated as cross-multiplication
`w' * h = h' * w`), rather than rejecting the image (the clamp is total);
images already within the bound keep their dimensions unchanged. -/
theorem convertImageDims_clamps (w h : ℚ) (hw : 0 < w) (hh : 0 < h) :
    (Part005.convertImageDims w h).1 ≤ Part005.maxDim ∧
    (Part005.convertImageDims w h).2 ≤ Part005.maxDim ∧
    (Part005.convertImageDims w h).1 * h = (Part005.convertImageDims w h).2 * w ∧
    (w ≤ Part005.maxDim → h ≤ Part005.maxDim → Part005.convertImageDims w h = (w, h)) := by
  unfold Part005.convertImageDims
  by_cases hcase : Part005.maxDim < w ∨ Part005.maxDim < h
  · simp only [hcase, if_pos]
    have hw' : w ≠ 0 := ne_of_gt hw
    have hh' : h ≠ 0 := ne_of_gt hh
    have hww : w * (Part005.maxDim / w) = Part005.maxDim := by
      field_simp
    have hhh : h * (Part005.maxDim / h) = Part005.maxDim := by
      field_simp
    refine ⟨?_, ?_, by ring, ?_⟩
    · calc w * min (Part005.maxDim / w) (Part005.maxDim / h)
          ≤ w * (Part005.maxDim / w) :=
            mul_le_mul_of_nonneg_left (min_le_left _ _) hw.le
        _ = Part005.maxDim := hww
    · calc h * min (Part005.maxDim / w) (Part005.maxDim / h)
          ≤ h * (Part005.maxDim / h) :=
            mul_le_mul_of_nonneg_left (min_le_right _ _) hh.le
        _ = Part005.maxDim := hhh
    · intro hw4 hh4
      rcases hcase with hc | hc
      · exact absurd hc (not_lt.mpr hw4)
      · exact absurd hc (not_lt.mpr hh4)
  · rw [if_neg hcase]
    push_neg at hcase
    exact ⟨hcase.1, hcase.2, by ring, fun _ _ => rfl⟩

/-- Witness for C6: an 8000 x 2000 image is clamped, and indeed comes out as
4000 x 1000. -/
theorem convertImageDims_clamps_witness :
    (0:ℚ) < 8000 ∧ (0:ℚ) < 2000 ∧
    (Part005.convertImageDims 8000 2000).1 ≤ Part005.maxDim ∧
    (Part005.convertImageDims 8000 2000).2 ≤ Part005.maxDim ∧
    Part005.convertImageDims 8000 2000 = (4000, 1000) := by
  have h := convertImageDims_clamps 8000 2000 (by norm_num) (by norm_num)
  refine ⟨by norm_num, by norm_num, h.1, h.2.1, ?_⟩
  norm_num [Part005.convertImageDims, Part005.maxDim]

/-- C7: For every input file on which format conversion to JPEG fails, the
`part_005` upload pipeline proceeds with the original file bytes unchanged
(subject only to the 50 MB size limit) instead of failing the request. -/
theorem uploadReceipt_conversion_failure_falls_back (f : JsFile) (e : String) :
    (f.size ≤ Part005.maxSize →
      Part005.uploadReceipt f (.error e) = .ok f) ∧
    (Part005.maxSize < f.size →
      Part005.uploadReceipt f (.error e) =
        .error "ファイルサイズが大きすぎます。50MB以下のファイルを選択してください。") := by
  constructor
  · intro hle
    unfold Part005.uploadReceipt
    by_cases hc : Part005.needsConversion f = true <;>
      simp [hc, not_lt.mpr hle]
  · intro hgt
    unfold Part005.uploadReceipt
    by_cases hc : Part005.needsConversion f = true <;>
      simp [hc, hgt]

/-- A 20 MB JPEG file, used as a concrete input below. -/
def bigJpeg : JsFile := { name := "receipt.jpg", size := 20 * 1024 * 1024, type := "image/jpeg" }

/-- A HEIC file whose conversion fails, used as a concrete input below. -/
def heicFile : JsFile := { name := "photo.heic", size := 3 * 1024 * 1024, type := "image/heic" }

/-- Witness for C7: a 3 MB HEIC file whose conversion fails is still
submitted, as the original file. -/
theorem uploadReceipt_conversion_failure_falls_back_witness :
    heicFile.size ≤ Part005.maxSize ∧
    Part005.uploadReceipt heicFile (.error "Failed to convert image") = .ok heicFile :=
  ⟨by decide,
   (uploadReceipt_conversion_failure_falls_back heicFile "Failed to convert image").1
     (by decide)⟩

/-- Counterexample for C9: the two `uploadReceipt` implementations do not
accept the same set of files. A 20 MB JPEG needs no conversion, so the
`part_005` version submits it (20 MB ≤ 50 MB) for every conversion outcome,
while the `api/index.ts` version rejects it (20 MB > 10 MB). -/
theorem uploadReceipt_versions_differ :
    Part005.accepts bigJpeg (.error "unused") = true ∧
    ApiIndex.accepts bigJpeg = false := by
  constructor <;> decide

/-- C9 amended: for every file that the `part_005` version does not convert
(JPEG/PNG MIME type, name not ending in `.heic`/`.heif`) and whose size is
over 10 MB and at most 50 MB, the `part_005` version submits it while the
`api/index.ts` version rejects it — so the two acceptance sets differ. -/
theorem uploadReceipt_versions_divergence (f : JsFile) (conv : Except String JsFile)
    (hconv : Part005.needsConversion f = false)
    (hlo : ApiIndex.maxSize < f.size) (hhi : f.size ≤ Part005.maxSize) :
    Part005.accepts f conv = true ∧ ApiIndex.accepts f = false := by
  constructor
  · unfold Part005.accepts Part005.uploadReceipt
    simp [hconv, not_lt.mpr hhi]
  · have herr :
        ApiIndex.uploadReceipt f =
          .error "ファイルサイズが大きすぎます。10MB以下のファイルを選択してください。" ∨
        ApiIndex.uploadReceipt f =
          .error "サポートされていないファイル形式です。JPEG または PNG ファイルを選択してください。" := by
      unfold ApiIndex.uploadReceipt
      by_cases ht : ¬ ApiIndex.allowedTypes.contains f.type = true
      · right; rw [if_pos ht]
      · left; rw [if_neg ht, if_pos hlo]
    unfold ApiIndex.accepts
    rcases herr with h | h <;> rw [h]

/-- Witness for C9's amended claim, at the concrete 20 MB JPEG. -/
theorem uploadReceipt_versions_divergence_witness :
    Part005.needsConversion bigJpeg = false ∧
    ApiIndex.maxSize < bigJpeg.size ∧ bigJpeg.size ≤ Part005.maxSize ∧
    Part005.accepts bigJpeg (.ok bigJpeg) = true ∧ ApiIndex.accepts bigJpeg = false := by
  refine ⟨by decide, by decide, by decide, ?_⟩
  exact uploadReceipt_versions_divergence bigJpeg (.ok bigJpeg)
    (by decide) (by decide) (by decide)

namespace EdgeFn

/-- The structured extraction the edge function reads out of the OpenAI
response (`src/unnamed/part_001`, lines 59-61). -/
structure AiExtraction where
  store_name : String
  total_amount : ℚ
  date : String
deriving DecidableEq, Repr

/-- An HTTP response of the edge function: either the 200 success envelope
(lines 68-76) or the catch-all error envelope with status 400 (lines 78-88). -/
inductive ServeResponse where
  | success (status : ℕ) (data : List AiExtraction)
  | failure (status : ℕ) (message : String)
deriving DecidableEq, Repr

/-- The `serve` handler of the Supabase edge function
`src/unnamed/part_001` (lines 10-90), after the CORS preflight branch:
one `try` block performs the OpenAI vision call and the database insert;
any failure of either step reaches the single `catch`, which returns a
status-400 error response. There is no OCR or regex fallback in this
handler. `vision` is the outcome of the OpenAI call (including response
parsing) and `insert` the outcome of the database insert. -/
def serve (vision : Except String AiExtraction)
    (insert : AiExtraction → Except String (List AiExtraction)) : ServeResponse :=
  match vision with
  | .error e => .failure 400 e
  | .ok a =>
    match insert a with
    | .error e => .failure 400 e
    | .ok rows => .success 200 rows

/-- Whether a response is the error envelope. -/
def isFailure : ServeResponse → Bool
  | .success _ _ => false
  | .failure _ _ => true

/-- A database insert that always succeeds, used as a concrete input below. -/
def okInsert : AiExtraction → Except String (List AiExtraction) :=
  fun a => .ok [a]

end EdgeFn

/-- Counterexample for C4: in the edge-function request handler of
`src/unnamed/part_001`, a vision-path failure ("network error") is surfaced
to the caller as a status-400 error response, with no fallback attempted —
refuting, at this concrete input, the claim that the handler never surfaces
a vision failure as an error response in place of attempting the fallback. -/
theorem serve_surfaces_vision_failure :
    EdgeFn.serve (.error "network error") EdgeFn.okInsert =
      .failure 400 "network error" ∧
    EdgeFn.isFailure (EdgeFn.serve (.error "network error") EdgeFn.okInsert) = true := by
  constructor <;> rfl

/-- C4 amended: in the edge-function handler of `src/unnamed/part_001`,
every vision-path failure is caught by the handler's single try/catch and
returned to the caller as a status-400 error response carrying the failure
message; no fallback extraction is attempted (the response does not depend
on any other extraction component). -/
theorem serve_vision_failure_is_400 (e : String)
    (insert : EdgeFn.AiExtraction → Except String (List EdgeFn.AiExtraction)) :
    EdgeFn.serve (.error e) insert = .failure 400 e := rfl

end ReceiptScanner

namespace ReceiptScanner

/-- A receipt row as the frontend chart code reads it
(`src/receipt-scanner-frontend/src/types/index.ts`, `ReceiptData`):
only the fields `getCategoryData` touches. Amounts are JavaScript numbers,
modelled as rationals; `expense_category` is optional. -/
structure ReceiptRow where
  expense_category : Option String
  total_amount : ℚ
deriving DecidableEq, Repr

namespace AppTsx

/-- The category key of a receipt in `getCategoryData`
(`App.tsx` line 298): `receipt.expense_category || '未分類'` — JavaScript
`||` sends both a missing and an empty-string category to `未分類`. -/
def categoryKey (r : ReceiptRow) : String :=
  match r.expense_category with
  | none => "未分類"
  | some s => if s = "" then "未分類" else s

/-- One step of the accumulation `categories[category] =
(categories[category] || 0) + receipt.total_amount` (`App.tsx` line 299),
on an association list in first-insertion key order (the order of a
JavaScript object's string keys). -/
def addTo (m : List (String × ℚ)) (k : String) (v : ℚ) : List (String × ℚ) :=
  match m with
  | [] => [(k, v)]
  | (k', v') :: rest =>
    if k' = k then (k', v' + v) :: rest else (k', v') :: addTo rest k v

/-- The `getCategoryData` of `App.tsx` (lines 294-303): fold all receipts into
the category map, then list its entries. -/
def getCategoryData (receipts : List ReceiptRow) : List (String × ℚ) :=
  receipts.foldl (fun m r => addTo m (categoryKey r) r.total_amount) []

/-- Sum of the aggregated values of a category map. -/
def sumValues (m : List (String × ℚ)) : ℚ :=
  (m.map (fun p => p.2)).sum

/-- Sum of the raw totals of a list of receipts. -/
def sumTotals (rs : List ReceiptRow) : ℚ :=
  (rs.map (fun r => r.total_amount)).sum

theorem sumValues_addTo (m : List (String × ℚ)) (k : String) (v : ℚ) :
    sumValues (addTo m k v) = sumValues m + v := by
  induction m with
  | nil => simp [addTo, sumValues]
  | cons p rest ih =>
    by_cases h : p.1 = k
    · simp [addTo, h, sumValues]
      ring
    · simp [addTo, h, sumValues] at ih ⊢
      rw [ih]
      ring

theorem mem_keys_addTo (m : List (String × ℚ)) (k : String) (v : ℚ) :
    k ∈ (addTo m k v).map (fun p => p.1) := by
  induction m with
  | nil => simp [addTo]
  | cons p rest ih =>
    by_cases h : p.1 = k
    · simp [addTo, h]
    · simp [addTo, h]
      right
      simpa using ih

theorem keys_addTo_mono (m : List (String × ℚ)) (k k' : String) (v : ℚ)
    (h : k' ∈ m.map (fun p => p.1)) :
    k' ∈ (addTo m k v).map (fun p => p.1) := by
  induction m with
  | nil => simp at h
  | cons p rest ih =>
    by_cases hk : p.1 = k
    · simpa [addTo, hk] using (by simpa [hk] using h)
    · simp [addTo, hk] at h ⊢
      rcases h with h | h
      · exact Or.inl h
      · exact Or.inr (by simpa using ih (by simpa using h))

theorem sumValues_fold (rs : List ReceiptRow) (m : List (String × ℚ)) :
    sumValues (rs.foldl (fun acc r => addTo acc (categoryKey r) r.total_amount) m) =
      sumValues m + sumTotals rs := by
  induction rs generalizing m with
  | nil => simp [sumTotals]
  | cons r rest ih =>
    simp only [List.foldl_cons]
    rw [ih, sumValues_addTo]
    simp [sumTotals]
    ring

theorem keys_fold_mono (rs : List ReceiptRow) (m : List (String × ℚ)) (k : String)
    (h : k ∈ m.map (fun p => p.1)) :
    k ∈ (rs.foldl (fun acc r => addTo acc (categoryKey r) r.total_amount) m).map
        (fun p => p.1) := by
  induction rs generalizing m with
  | nil => simpa using h
  | cons r rest ih =>
    simp only [List.foldl_cons]
    exact ih _ (keys_addTo_mono _ _ _ _ h)

end AppTsx

/-- C10: the category aggregation `getCategoryData` is total-preserving and
exhaustive — the sum of the aggregated category values equals the sum of all
receipts' `total_amount` (each receipt's amount is added under exactly one
key, receipts with a null or empty `expense_category` under `未分類`), and
every receipt's category key appears in the output. -/
theorem getCategoryData_preserves_total (rs : List ReceiptRow) :
    AppTsx.sumValues (AppTsx.getCategoryData rs) = AppTsx.sumTotals rs ∧
    ∀ r ∈ rs, AppTsx.categoryKey r ∈ (AppTsx.getCategoryData rs).map (fun p => p.1) := by
  constructor
  · unfold AppTsx.getCategoryData
    rw [AppTsx.sumValues_fold]
    simp [AppTsx.sumValues]
  · intro r hr
    unfold AppTsx.getCategoryData
    obtain ⟨l₁, l₂, rfl⟩ := List.append_of_mem hr
    rw [List.foldl_append]
    simp only [List.foldl_cons]
    exact AppTsx.keys_fold_mono l₂ _ _
      (AppTsx.mem_keys_addTo _ _ _)

namespace Core

/-- Modelled from the spec: the candidate record shape produced by the
vision path (section 4.3) and the regex/heuristic path (section 4.4) of the
backend extraction core (`app/main.py`, absent from the shipped sources).
Every field is optional; numeric fields hold already-normalized plain
decimals (currency symbols and thousands separators stripped, section 4.3). -/
structure Candidate where
  store_name : Option String
  date : Option String
  total_amount : Option ℚ
  tax_excluded_amount : Option ℚ
  tax_included_amount : Option ℚ
  expense_category : Option String
  payment_method : Option String
deriving DecidableEq, Repr

/-- Modelled from the spec: the `processing_mode` enumeration of values
`ai`, `ocr` and `hybrid` (section 3). -/
inductive ProcessingMode where
  | ai
  | ocr
  | hybrid
deriving DecidableEq, Repr

/-- Modelled from the spec: the final `ReceiptRecord` of section 3, produced
by the reconciler of the backend core (absent from the shipped sources). -/
structure ReceiptRecord where
  store_name : String
  date : String
  total_amount : ℚ
  tax_excluded_amount : Option ℚ
  tax_included_amount : Option ℚ
  expense_category : Option String
  payment_method : Option String
  processing_mode : ProcessingMode
  confidence_score : ℚ
  date_was_defaulted : Bool
deriving DecidableEq, Repr

/-- First-of-two choice on optional fields: the first value when present,
the second otherwise. -/
def pick {α : Type} (a b : Option α) : Option α :=
  match a with
  | some x => some x
  | none => b

/-- The candidate with no populated field. -/
def emptyCandidate : Candidate :=
  { store_name := none, date := none, total_amount := none,
    tax_excluded_amount := none, tax_included_amount := none,
    expense_category := none, payment_method := none }

/-- Modelled from the spec (section 4.5): the vision candidate is
authoritative for all fields it populated; its null fields are back-filled
from the regex candidate if present. -/
def mergeCandidates (v : Candidate) (r : Option Candidate) : Candidate :=
  let rc := r.getD emptyCandidate
  { store_name := pick v.store_name rc.store_name
    date := pick v.date rc.date
    total_amount := pick v.total_amount rc.total_amount
    tax_excluded_amount := pick v.tax_excluded_amount rc.tax_excluded_amount
    tax_included_amount := pick v.tax_included_amount rc.tax_included_amount
    expense_category := pick v.expense_category rc.expense_category
    payment_method := pick v.payment_method rc.payment_method }

/-- Whether the merge actually took any field from the regex candidate:
true exactly when some field null in the vision candidate is populated in
the regex candidate. Drives `processing_mode` (section 4.5: `hybrid` if
fields were merged from both, `ai` if vision alone supplied every populated
field). -/
def backfillUsed (v : Candidate) (r : Option Candidate) : Bool :=
  let rc := r.getD emptyCandidate
  (v.store_name.isNone && rc.store_name.isSome)
    || (v.date.isNone && rc.date.isSome)
    || (v.total_amount.isNone && rc.total_amount.isSome)
    || (v.tax_excluded_amount.isNone && rc.tax_excluded_amount.isSome)
    || (v.tax_included_amount.isNone && rc.tax_included_amount.isSome)
    || (v.expense_category.isNone && rc.expense_category.isSome)
    || (v.payment_method.isNone && rc.payment_method.isSome)

/-- Whether every field of a candidate is populated. -/
def allPopulated (v : Candidate) : Bool :=
  v.store_name.isSome && v.date.isSome && v.total_amount.isSome
    && v.tax_excluded_amount.isSome && v.tax_included_amount.isSome
    && v.expense_category.isSome && v.payment_method.isSome

/-- Modelled from the spec (section 4.5): the fixed per-field confidence
penalty for a defaulted or back-filled field. -/
def fieldPenalty : ℚ := 1 / 10

/-- Modelled from the spec (section 4.5): the lower confidence baseline of
OCR-only results. -/
def ocrBaseline : ℚ := 7 / 10

/-- Count of a Bool as 0 or 1. -/
def boolNat (b : Bool) : ℕ := if b then 1 else 0

/-- Number of fields back-filled from the regex candidate. -/
def backfillCount (v rc : Candidate) : ℕ :=
  boolNat (v.store_name.isNone && rc.store_name.isSome)
    + boolNat (v.date.isNone && rc.date.isSome)
    + boolNat (v.total_amount.isNone && rc.total_amount.isSome)
    + boolNat (v.tax_excluded_amount.isNone && rc.tax_excluded_amount.isSome)
    + boolNat (v.tax_included_amount.isNone && rc.tax_included_amount.isSome)
    + boolNat (v.expense_category.isNone && rc.expense_category.isSome)
    + boolNat (v.payment_method.isNone && rc.payment_method.isSome)

/-- Number of required fields that had to be defaulted after the merge
(store name and date are the two defaulted fields, section 4.5). -/
def defaultCount (c : Candidate) : ℕ :=
  boolNat c.store_name.isNone + boolNat c.date.isNone

/-- Modelled from the spec (section 4.5): confidence of a vision-derived
result — start from 1.0, deduct the fixed penalty per back-filled or
defaulted field, floored at 0. -/
def visionConfidence (v : Candidate) (r : Option Candidate) : ℚ :=
  let rc := r.getD emptyCandidate
  max 0 (1 - fieldPenalty * (backfillCount v rc + defaultCount (mergeCandidates v r)))

/-- Modelled from the spec (section 4.5): confidence of an OCR-only result —
the lower baseline minus the fixed penalty per defaulted field, floored
at 0. -/
def ocrConfidence (r : Candidate) : ℚ :=
  max 0 (ocrBaseline - fieldPenalty * defaultCount r)

/-- Modelled from the spec (section 4.5): build the final record from a
merged candidate with a known total — default a missing store name to the
placeholder, default a missing date to the processing date and flag the
substitution. -/
def finalize (c : Candidate) (t : ℚ) (today : String)
    (mode : ProcessingMode) (conf : ℚ) : ReceiptRecord :=
  { store_name := c.store_name.getD "不明な店舗"
    date := c.date.getD today
    total_amount := t
    tax_excluded_amount := c.tax_excluded_amount
    tax_included_amount := c.tax_included_amount
    expense_category := c.expense_category
    payment_method := c.payment_method
    processing_mode := mode
    confidence_score := conf
    date_was_defaulted := c.date.isNone }

/-- Modelled from the spec (section 4.5): "If only the regex candidate
exists, it is used as-is"; no total amount in it means the terminal
structured failure. -/
def reconcileRegexOnly (regex : Option Candidate) (today : String) :
    Except String ReceiptRecord :=
  match regex with
  | some r =>
    match r.total_amount with
    | some t => .ok (finalize r t today ProcessingMode.ocr (ocrConfidence r))
    | none => .error "no usable data extracted"
  | none => .error "no usable data extracted"

/-- Modelled from the spec (section 4.5): the reconciler. A vision candidate
with a non-null total is authoritative and merged over the regex candidate
(`ai` when nothing was taken from regex, `hybrid` otherwise); otherwise the
regex candidate is used as-is; no usable total anywhere is the one hard
failure. -/
def reconcile (vision regex : Option Candidate) (today : String) :
    Except String ReceiptRecord :=
  match vision with
  | some v =>
    match v.total_amount with
    | some t =>
      let mode := if backfillUsed v regex then ProcessingMode.hybrid
                  else ProcessingMode.ai
      .ok (finalize (mergeCandidates v regex) t today mode (visionConfidence v regex))
    | none => reconcileRegexOnly regex today
  | none => reconcileRegexOnly regex today

/-- Modelled from the spec (section 7): the pipeline's structured failure
taxonomy visible to the caller — input rejected before extraction, or both
paths exhausted with no usable total amount. -/
inductive UploadError where
  | inputRejected
  | noUsableData
deriving DecidableEq, Repr

/-- Modelled from the spec (sections 4.1, 4.5, 7): the upload pipeline of
the backend core (absent from the shipped sources) — reject empty image
bytes immediately, before consulting either extraction path; otherwise
reconcile whatever candidates the paths produced. `vision` and `regex` are
the candidate records the two paths yielded (none when a path failed or
found nothing). -/
def processUpload (bytes : List ℕ) (today : String)
    (vision regex : Option Candidate) : Except UploadError ReceiptRecord :=
  if bytes.isEmpty then .error UploadError.inputRejected
  else
    match reconcile vision regex today with
    | .ok rec => .ok rec
    | .error _ => .error UploadError.noUsableData

/-- The total amount a path yielded, if any. -/
def candTotal (o : Option Candidate) : Option ℚ :=
  o.bind Candidate.total_amount

/-- The date a path yielded, if any. -/
def candDate (o : Option Candidate) : Option String :=
  o.bind Candidate.date

theorem backfillUsed_of_allPopulated (v : Candidate) (r : Option Candidate)
    (h : allPopulated v = true) : backfillUsed v r = false := by
  unfold allPopulated at h
  simp only [Bool.and_eq_true] at h
  obtain ⟨⟨⟨⟨⟨⟨h1, h2⟩, h3⟩, h4⟩, h5⟩, h6⟩, h7⟩ := h
  obtain ⟨x1, e1⟩ := Option.isSome_iff_exists.mp h1
  obtain ⟨x2, e2⟩ := Option.isSome_iff_exists.mp h2
  obtain ⟨x3, e3⟩ := Option.isSome_iff_exists.mp h3
  obtain ⟨x4, e4⟩ := Option.isSome_iff_exists.mp h4
  obtain ⟨x5, e5⟩ := Option.isSome_iff_exists.mp h5
  obtain ⟨x6, e6⟩ := Option.isSome_iff_exists.mp h6
  obtain ⟨x7, e7⟩ := Option.isSome_iff_exists.mp h7
  simp [backfillUsed, e1, e2, e3, e4, e5, e6, e7]

end Core

/-- C8: for every upload whose image content is empty (zero bytes), the
pipeline rejects the request immediately with the input-rejected failure,
and the result does not depend on either extraction path's outcome — the
rejection happens before any extraction is consulted. -/
theorem empty_upload_rejected (today : String)
    (vision regex vision' regex' : Option Core.Candidate) :
    Core.processUpload [] today vision regex =
      .error Core.UploadError.inputRejected ∧
    Core.processUpload [] today vision regex =
      Core.processUpload [] today vision' regex' :=
  ⟨rfl, rfl⟩

/-- C1: once input validation has passed (non-empty bytes), the pipeline
fails exactly when neither the vision path nor the regex path yielded a
`total_amount`; the failure is the structured no-usable-data error and no
record is returned, and this is the only failure the pipeline can produce
at that point. -/
theorem upload_fails_iff_no_total (bytes : List ℕ) (today : String)
    (vision regex : Option Core.Candidate) (hb : bytes ≠ []) :
    (Core.processUpload bytes today vision regex =
        .error Core.UploadError.noUsableData ↔
      Core.candTotal vision = none ∧ Core.candTotal regex = none) ∧
    ∀ e, Core.processUpload bytes today vision regex = .error e →
      e = Core.UploadError.noUsableData := by
  have hne : bytes.isEmpty = false := by
    cases bytes with
    | nil => exact absurd rfl hb
    | cons a l => rfl
  unfold Core.processUpload
  simp only [hne, Bool.false_eq_true, if_false]
  rcases vision with _ | v
  · rcases regex with _ | r
    · simp [Core.reconcile, Core.reconcileRegexOnly, Core.candTotal]
    · rcases hrt : r.total_amount with _ | t
      · simp [Core.reconcile, Core.reconcileRegexOnly, hrt, Core.candTotal]
      · simp [Core.reconcile, Core.reconcileRegexOnly, hrt, Core.candTotal]
  · rcases hvt : v.total_amount with _ | t
    · rcases regex with _ | r
      · simp [Core.reconcile, Core.reconcileRegexOnly, hvt, Core.candTotal]
      · rcases hrt : r.total_amount with _ | t
        · simp [Core.reconcile, Core.reconcileRegexOnly, hvt, hrt, Core.candTotal]
        · simp [Core.reconcile, Core.reconcileRegexOnly, hvt, hrt, Core.candTotal]
    · simp [Core.reconcile, hvt, Core.candTotal]

/-- Witness for C1: with non-empty bytes and no candidate from either path,
the pipeline returns the structured no-usable-data failure. -/
theorem upload_fails_iff_no_total_witness :
    ([1] : List ℕ) ≠ [] ∧
    Core.processUpload [1] "2026-02-03" none none =
      .error Core.UploadError.noUsableData :=
  ⟨by decide,
   (upload_fails_iff_no_total [1] "2026-02-03" none none (by decide)).1.mpr
     ⟨rfl, rfl⟩⟩

/-- C2: when the vision path returns a candidate with a non-null
`total_amount`, the pipeline succeeds and the vision candidate is
authoritative — every field it populated appears unchanged in the final
record (candidates hold already-normalized numerics), each of its null
fields is back-filled from the regex candidate, and when vision alone
supplied every populated field the final record's `processing_mode` is
`ai`. -/
theorem vision_total_authoritative (bytes : List ℕ) (today : String)
    (v : Core.Candidate) (regex : Option Core.Candidate) (t : ℚ)
    (hb : bytes ≠ []) (ht : v.total_amount = some t) :
    ∃ rec, Core.processUpload bytes today (some v) regex = .ok rec ∧
      rec.total_amount = t ∧
      (∀ s, v.store_name = some s → rec.store_name = s) ∧
      (∀ d, v.date = some d → rec.date = d ∧ rec.date_was_defaulted = false) ∧
      (∀ q, v.tax_excluded_amount = some q → rec.tax_excluded_amount = some q) ∧
      (∀ q, v.tax_included_amount = some q → rec.tax_included_amount = some q) ∧
      (∀ c, v.expense_category = some c → rec.expense_category = some c) ∧
      (∀ p, v.payment_method = some p → rec.payment_method = some p) ∧
      (v.tax_excluded_amount = none →
        rec.tax_excluded_amount = regex.bind Core.Candidate.tax_excluded_amount) ∧
      (v.tax_included_amount = none →
        rec.tax_included_amount = regex.bind Core.Candidate.tax_included_amount) ∧
      (v.expense_category = none →
        rec.expense_category = regex.bind Core.Candidate.expense_category) ∧
      (v.payment_method = none →
        rec.payment_method = regex.bind Core.Candidate.payment_method) ∧
      (v.store_name = none → ∀ s,
        regex.bind Core.Candidate.store_name = some s → rec.store_name = s) ∧
      (v.date = none → ∀ d,
        regex.bind Core.Candidate.date = some d → rec.date = d) ∧
      (Core.allPopulated v = true →
        rec.processing_mode = Core.ProcessingMode.ai) := by
  have hne : bytes.isEmpty = false := by
    cases bytes with
    | nil => exact absurd rfl hb
    | cons a l => rfl
  refine ⟨Core.finalize (Core.mergeCandidates v regex) t today
      (if Core.backfillUsed v regex then Core.ProcessingMode.hybrid
       else Core.ProcessingMode.ai)
      (Core.visionConfidence v regex), ?_, rfl, ?_, ?_, ?_, ?_, ?_, ?_, ?_, ?_,
      ?_, ?_, ?_, ?_, ?_⟩
  · unfold Core.processUpload
    simp only [hne, Bool.false_eq_true, if_false]
    simp [Core.reconcile, ht]
  · intro s hs
    simp [Core.finalize, Core.mergeCandidates, Core.pick, hs]
  · intro d hd
    constructor <;> simp [Core.finalize, Core.mergeCandidates, Core.pick, hd]
  · intro q hq
    simp [Core.finalize, Core.mergeCandidates, Core.pick, hq]
  · intro q hq
    simp [Core.finalize, Core.mergeCandidates, Core.pick, hq]
  · intro c hc
    simp [Core.finalize, Core.mergeCandidates, Core.pick, hc]
  · intro p hp
    simp [Core.finalize, Core.mergeCandidates, Core.pick, hp]
  · intro h0
    rcases regex with _ | r <;>
      simp [Core.finalize, Core.mergeCandidates, Core.pick, Core.emptyCandidate, h0]
  · intro h0
    rcases regex with _ | r <;>
      simp [Core.finalize, Core.mergeCandidates, Core.pick, Core.emptyCandidate, h0]
  · intro h0
    rcases regex with _ | r <;>
      simp [Core.finalize, Core.mergeCandidates, Core.pick, Core.emptyCandidate, h0]
  · intro h0
    rcases regex with _ | r <;>
      simp [Core.finalize, Core.mergeCandidates, Core.pick, Core.emptyCandidate, h0]
  · intro h0 s hs
    rcases regex with _ | r
    · simp at hs
    · have hs' : r.store_name = some s := hs
      simp [Core.finalize, Core.mergeCandidates, Core.pick, Core.emptyCandidate, h0, hs']
  · intro h0 d hd
    rcases regex with _ | r
    · simp at hd
    · have hd' : r.date = some d := hd
      simp [Core.finalize, Core.mergeCandidates, Core.pick, Core.emptyCandidate, h0, hd']
  · intro hall
    simp [Core.finalize, Core.backfillUsed_of_allPopulated v regex hall]

/-- A fully populated vision candidate, used as a concrete input below. -/
def demoVision : Core.Candidate :=
  { store_name := some "テスト店", date := some "2026-02-03",
    total_amount := some 1200, tax_excluded_amount := some 1091,
    tax_included_amount := some 1200, expense_category := some "飲食費",
    payment_method := some "現金" }

/-- Witness for C2: a fully populated vision candidate yields a record that
keeps its fields and is marked `ai`. -/
theorem vision_total_authoritative_witness :
    ([1] : List ℕ) ≠ [] ∧ demoVision.total_amount = some 1200 ∧
    ∃ rec, Core.processUpload [1] "2026-02-10" (some demoVision) none = .ok rec ∧
      rec.total_amount = 1200 ∧ rec.store_name = "テスト店" ∧
      rec.processing_mode = Core.ProcessingMode.ai := by
  refine ⟨by decide, rfl, ?_⟩
  obtain ⟨rec, hok, htot, hstore, -, -, -, -, -, -, -, -, -, -, -, hmode⟩ :=
    vision_total_authoritative [1] "2026-02-10" demoVision none 1200
      (by decide) rfl
  exact ⟨rec, hok, htot, hstore "テスト店" rfl, hmode rfl⟩

/-- C3: for every upload from which no date could be extracted by either
path, a successful final record has `date` equal to the processing date and
`date_was_defaulted` set. -/
theorem missing_date_defaulted (bytes : List ℕ) (today : String)
    (vision regex : Option Core.Candidate) (rec : Core.ReceiptRecord)
    (hv : Core.candDate vision = none) (hr : Core.candDate regex = none)
    (h : Core.processUpload bytes today vision regex = .ok rec) :
    rec.date = today ∧ rec.date_was_defaulted = true := by
  by_cases hne : bytes.isEmpty = true
  · unfold Core.processUpload at h
    simp [hne] at h
  · unfold Core.processUpload at h
    simp only [hne, if_false, Bool.false_eq_true] at h
    rcases vision with _ | v
    · rcases regex with _ | r
      · simp [Core.reconcile, Core.reconcileRegexOnly] at h
      · have hr' : r.date = none := hr
        rcases hrt : r.total_amount with _ | t
        · simp [Core.reconcile, Core.reconcileRegexOnly, hrt] at h
        · simp [Core.reconcile, Core.reconcileRegexOnly, hrt] at h
          subst h
          simp [Core.finalize, hr']
    · have hv' : v.date = none := hv
      rcases hvt : v.total_amount with _ | t
      · rcases regex with _ | r
        · simp [Core.reconcile, Core.reconcileRegexOnly, hvt] at h
        · have hr' : r.date = none := hr
          rcases hrt : r.total_amount with _ | t
          · simp [Core.reconcile, Core.reconcileRegexOnly, hvt, hrt] at h
          · simp [Core.reconcile, Core.reconcileRegexOnly, hvt, hrt] at h
            subst h
            simp [Core.finalize, hr']
      · simp [Core.reconcile, hvt] at h
        subst h
        rcases regex with _ | r
        · simp [Core.finalize, Core.mergeCandidates, Core.pick,
            Core.emptyCandidate, hv']
        · have hr' : r.date = none := hr
          simp [Core.finalize, Core.mergeCandidates, Core.pick,
            Core.emptyCandidate, hv', hr']

/-- A regex-path candidate with a total but no date, used as a concrete
input below. -/
def demoRegex : Core.Candidate :=
  { store_name := some "コンビニ", date := none, total_amount := some 800,
    tax_excluded_amount := none, tax_included_amount := none,
    expense_category := none, payment_method := none }

/-- The record the pipeline produces from `demoRegex` alone on
2026-02-03. -/
def demoRegexRecord : Core.ReceiptRecord :=
  { store_name := "コンビニ", date := "2026-02-03", total_amount := 800,
    tax_excluded_amount := none, tax_included_amount := none,
    expense_category := none, payment_method := none,
    processing_mode := Core.ProcessingMode.ocr,
    confidence_score := Core.ocrConfidence demoRegex,
    date_was_defaulted := true }

/-- Witness for C3: a regex-only candidate with no date yields a record
dated with the processing date and flagged as defaulted. -/
theorem missing_date_defaulted_witness :
    Core.processUpload [1] "2026-02-03" none (some demoRegex) =
      .ok demoRegexRecord ∧
    demoRegexRecord.date = "2026-02-03" ∧
    demoRegexRecord.date_was_defaulted = true := by
  have hrun : Core.processUpload [1] "2026-02-03" none (some demoRegex) =
      .ok demoRegexRecord := rfl
  exact ⟨hrun,
    missing_date_defaulted [1] "2026-02-03" none (some demoRegex)
      demoRegexRecord rfl rfl hrun⟩

namespace RegexPath

/-- Value of a decimal digit character. -/
def digitVal (c : Char) : ℕ := c.toNat - 48

/-- Characters a currency-marked numeric token may contain: digits and the
thousands separator. -/
def isNumChar (c : Char) : Bool := c.isDigit || c = ','

/-- Read a numeric token (digits with optional thousands separators) off the
front of `l`: its value with separators stripped, and the remaining input. -/
def numToken (l : List Char) : ℕ × List Char :=
  (((l.takeWhile isNumChar).filter Char.isDigit).foldl
      (fun a c => a * 10 + digitVal c) 0,
   l.drop (l.takeWhile isNumChar).length)

/-- Modelled from the spec (section 4.4, Amount): scan a line for
currency-marked numeric tokens — a yen sign followed by a number, or a
number followed by the trailing currency unit `円`, with thousands
separators allowed. Returns the values found, in order. The structural
`fuel` argument bounds the recursion; every step consumes at least one
character, so `fuel = l.length` never runs out. -/
def scanAmountsAux : ℕ → List Char → List ℕ
  | 0, _ => []
  | fuel + 1, l =>
    match l with
    | [] => []
    | c :: cs =>
      if c == '¥' || c == '￥' then
        if (cs.head?.map Char.isDigit).getD false then
          (numToken cs).1 :: scanAmountsAux fuel (numToken cs).2
        else scanAmountsAux fuel cs
      else if c.isDigit then
        if ((numToken (c :: cs)).2.head?.map (fun e => e == '円')).getD false then
          (numToken (c :: cs)).1 :: scanAmountsAux fuel ((numToken (c :: cs)).2.drop 1)
        else scanAmountsAux fuel (numToken (c :: cs)).2
      else scanAmountsAux fuel cs

/-- The currency-marked amounts of one line. -/
def scanAmounts (l : List Char) : List ℕ :=
  scanAmountsAux l.length l

/-- Whether `l` starts with the character sequence `pat`. -/
def startsWithSeq : List Char → List Char → Bool
  | [], _ => true
  | _ :: _, [] => false
  | p :: ps, c :: cs => p == c && startsWithSeq ps cs

/-- Whether `l` contains the character sequence `pat`. -/
def containsSeq (pat : List Char) : List Char → Bool
  | [] => pat.isEmpty
  | c :: cs => startsWithSeq pat (c :: cs) || containsSeq pat cs

/-- Modelled from the spec (section 4.4): the "total"-type keywords an
amount prefers to sit near. -/
def totalKeywords : List String := ["合計", "total", "Total", "TOTAL"]

/-- Whether a line contains a total-type keyword. -/
def hasTotalKeyword (s : String) : Bool :=
  totalKeywords.any (fun k => containsSeq k.data s.data)

/-- All currency-marked amounts of an OCR text, each tagged with the index
of the line it occurs on. -/
def candidatesWithLine (lines : List String) : List (ℕ × ℕ) :=
  lines.enum.flatMap (fun p => (scanAmounts p.2.data).map (fun v => (p.1, v)))

/-- Indices of the lines containing a total-type keyword. -/
def keywordLineIdxs (lines : List String) : List ℕ :=
  (lines.enum.filter (fun p => hasTotalKeyword p.2)).map (fun p => p.1)

/-- Distance between two line indices. -/
def natDist (a b : ℕ) : ℕ := max a b - min a b

/-- Distance from line `i` to the nearest keyword line. -/
def distToKeywords (ks : List ℕ) (i : ℕ) : ℕ :=
  match ks with
  | [] => 0
  | k :: ks' => ks'.foldl (fun d k' => min d (natDist i k')) (natDist i k)

/-- Keep the candidate strictly nearer to a keyword line. -/
def nearStep (ks : List ℕ) (best x : ℕ × ℕ) : ℕ × ℕ :=
  if distToKeywords ks x.1 < distToKeywords ks best.1 then x else best

/-- The candidate nearest a keyword line (first wins ties). -/
def chooseNearest (ks : List ℕ) (c : ℕ × ℕ) (cs : List (ℕ × ℕ)) : ℕ × ℕ :=
  cs.foldl (nearStep ks) c

/-- The maximum candidate value. -/
def maxAmount (v : ℕ) (cs : List (ℕ × ℕ)) : ℕ :=
  cs.foldl (fun m x => max m x.2) v

/-- Modelled from the spec (section 4.4, Amount): scan for currency-marked
numeric tokens; when multiple candidates are found, prefer the token nearest
a total-type keyword line; otherwise take the maximum numeric value found;
no candidate at all leaves the amount null. -/
def extractTotalAmount (lines : List String) : Option ℕ :=
  match candidatesWithLine lines with
  | [] => none
  | c :: cs =>
    if keywordLineIdxs lines = [] then some (maxAmount c.2 cs)
    else some (chooseNearest (keywordLineIdxs lines) c cs).2

theorem chooseNearest_mem (ks : List ℕ) (c : ℕ × ℕ) (cs : List (ℕ × ℕ)) :
    chooseNearest ks c cs ∈ c :: cs := by
  induction cs generalizing c with
  | nil => simp [chooseNearest]
  | cons x xs ih =>
    have h := ih (nearStep ks c x)
    have hcx : nearStep ks c x = x ∨ nearStep ks c x = c := by
      unfold nearStep
      split <;> simp
    simp only [chooseNearest, List.foldl_cons] at h ⊢
    simp only [List.mem_cons] at h ⊢
    rcases h with h | h
    · rcases hcx with e | e
      · right; left; rw [h, e]
      · left; rw [h, e]
    · right; right; exact h

theorem chooseNearest_min (ks : List ℕ) (c : ℕ × ℕ) (cs : List (ℕ × ℕ)) :
    ∀ q ∈ c :: cs,
      distToKeywords ks (chooseNearest ks c cs).1 ≤ distToKeywords ks q.1 := by
  induction cs generalizing c with
  | nil =>
    intro q hq
    simp only [List.mem_cons, List.not_mem_nil, or_false] at hq
    subst hq
    simp [chooseNearest]
  | cons x xs ih =>
    intro q hq
    have hle_c : distToKeywords ks (nearStep ks c x).1 ≤ distToKeywords ks c.1 := by
      unfold nearStep
      split
      · exact le_of_lt ‹_›
      · exact le_refl _
    have hle_x : distToKeywords ks (nearStep ks c x).1 ≤ distToKeywords ks x.1 := by
      unfold nearStep
      split
      · exact le_refl _
      · exact not_lt.mp ‹_›
    have ihh := ih (nearStep ks c x)
    simp only [chooseNearest, List.foldl_cons] at ihh ⊢
    rcases List.mem_cons.mp hq with rfl | hq'
    · exact le_trans (ihh _ (List.mem_cons_self _ _)) hle_c
    · rcases List.mem_cons.mp hq' with rfl | hq''
      · exact le_trans (ihh _ (List.mem_cons_self _ _)) hle_x
      · exact ihh q (List.mem_cons_of_mem _ hq'')

theorem maxAmount_mem (v : ℕ) (cs : List (ℕ × ℕ)) :
    maxAmount v cs ∈ v :: cs.map (fun p => p.2) := by
  induction cs generalizing v with
  | nil => simp [maxAmount]
  | cons x xs ih =>
    have h := ih (max v x.2)
    simp only [maxAmount, List.foldl_cons] at h ⊢
    simp only [List.map_cons, List.mem_cons] at h ⊢
    rcases h with h | h
    · rcases max_choice v x.2 with e | e
      · left; rw [h, e]
      · right; left; rw [h, e]
    · right; right; exact h

theorem maxAmount_ge (v : ℕ) (cs : List (ℕ × ℕ)) :
    ∀ w ∈ v :: cs.map (fun p => p.2), w ≤ maxAmount v cs := by
  induction cs generalizing v with
  | nil =>
    intro w hw
    simp only [List.map_nil, List.mem_cons, List.not_mem_nil, or_false] at hw
    subst hw
    simp [maxAmount]
  | cons x xs ih =>
    intro w hw
    have ihh := ih (max v x.2)
    simp only [maxAmount, List.foldl_cons] at ihh ⊢
    simp only [List.map_cons, List.mem_cons] at hw
    rcases hw with h | h | hw
    · subst h
      exact le_trans (le_max_left _ _) (ihh _ (List.mem_cons_self _ _))
    · subst h
      exact le_trans (le_max_right _ _) (ihh _ (List.mem_cons_self _ _))
    · exact ihh w (List.mem_cons_of_mem _ hw)

end RegexPath

/-- C5: for every OCR text with currency-marked numeric tokens, the
extracted total is the token nearest a total-type (`合計`) keyword line when
one exists, and otherwise the maximum numeric value found; in particular for
the lines `小計 ¥900` and `合計 ¥1,000` the extracted total is 1000, not
900. -/
theorem extractTotalAmount_heuristic :
    (∀ lines c cs, RegexPath.candidatesWithLine lines = c :: cs →
        RegexPath.keywordLineIdxs lines = [] →
        RegexPath.extractTotalAmount lines = some (RegexPath.maxAmount c.2 cs) ∧
        RegexPath.maxAmount c.2 cs ∈ (c :: cs).map (fun p => p.2) ∧
        ∀ q ∈ c :: cs, q.2 ≤ RegexPath.maxAmount c.2 cs) ∧
    (∀ lines c cs, RegexPath.candidatesWithLine lines = c :: cs →
        RegexPath.keywordLineIdxs lines ≠ [] →
        ∃ p, p ∈ c :: cs ∧ RegexPath.extractTotalAmount lines = some p.2 ∧
          ∀ q ∈ c :: cs,
            RegexPath.distToKeywords (RegexPath.keywordLineIdxs lines) p.1 ≤
              RegexPath.distToKeywords (RegexPath.keywordLineIdxs lines) q.1) ∧
    RegexPath.extractTotalAmount ["小計 ¥900", "合計 ¥1,000"] = some 1000 := by
  refine ⟨?_, ?_, ?_⟩
  · intro lines c cs hc hk
    refine ⟨?_, ?_, ?_⟩
    · unfold RegexPath.extractTotalAmount
      rw [hc, hk]
      simp
    · have h := RegexPath.maxAmount_mem c.2 cs
      simpa using h
    · intro q hq
      apply RegexPath.maxAmount_ge
      rcases List.mem_cons.mp hq with rfl | hq'
      · exact List.mem_cons_self _ _
      · exact List.mem_cons_of_mem _ (List.mem_map_of_mem _ hq')
  · intro lines c cs hc hk
    refine ⟨RegexPath.chooseNearest (RegexPath.keywordLineIdxs lines) c cs,
      RegexPath.chooseNearest_mem _ _ _, ?_,
      RegexPath.chooseNearest_min _ _ _⟩
    unfold RegexPath.extractTotalAmount
    rw [hc]
    simp [hk]
  · decide

/-- Witness for C5: with no keyword line, the larger of two plain
currency-marked amounts is extracted. -/
theorem extractTotalAmount_heuristic_witness :
    RegexPath.candidatesWithLine ["¥300", "¥500"] = [(0, 300), (1, 500)] ∧
    RegexPath.keywordLineIdxs ["¥300", "¥500"] = [] ∧
    RegexPath.extractTotalAmount ["¥300", "¥500"] =
      some (RegexPath.maxAmount 300 [(1, 500)]) ∧
    RegexPath.maxAmount 300 [(1, 500)] = 500 := by
  refine ⟨by decide, by decide, ?_, by decide⟩
  exact (extractTotalAmount_heuristic.1 ["¥300", "¥500"] (0, 300) [(1, 500)]
    (by decide) (by decide)).1

/-- Demo receipt list: one categorized, one null-category, one
empty-category receipt. -/
def demoRows : List ReceiptRow :=
  [{ expense_category := some "飲食費", total_amount := 500 },
   { expense_category := none, total_amount := 300 },
   { expense_category := some "", total_amount := 200 }]

/-- Witness for C10: on the demo list the aggregated sum is 1000, equal to
the raw sum, and the null-category receipt lands under `未分類`. -/
theorem getCategoryData_preserves_total_witness :
    AppTsx.sumValues (AppTsx.getCategoryData demoRows) = AppTsx.sumTotals demoRows ∧
    AppTsx.sumTotals demoRows = 1000 ∧
    "未分類" ∈ (AppTsx.getCategoryData demoRows).map (fun p => p.1) := by
  have h := getCategoryData_preserves_total demoRows
  refine ⟨h.1, by norm_num [AppTsx.sumTotals, demoRows], ?_⟩
  have hmem : ({ expense_category := none, total_amount := 300 } : ReceiptRow) ∈ demoRows := by
    simp [demoRows]
  simpa [AppTsx.categoryKey] using
    h.2 { expense_category := none, total_amount := 300 } hmem

end ReceiptScanner
